import Mathlib

/-!
Verification of the videoSlideExtractor frame-deduplication tool
(`src/main.rs`) against its natural-language specification.

The embedding translates the Rust source:
* `Image` models `image::DynamicImage` as a width, a height and a pixel
  grid (RGBA channels as a 4-tuple of naturals).
* `diffCount` / `difference_ratio` / `are_images_similar` model the
  function `are_images_similar` (the nested x/y loop counting differing
  pixels and the ratio comparison; `f64` arithmetic is embedded as exact
  rational arithmetic over `ℚ`).
* `FrameFile` models one directory entry: its path, its extension
  (`Path::extension`), the outcome of `image::open` and the outcome of a
  potential `fs::remove_file`.
* `runScan` / `process_frames` model `process_frames`: filtering on the
  `png` extension, lexicographic sort, and the sequential scan deleting
  frames similar to the previous decoded image.  The error monad of
  `Result<(), io::Error>` is embedded as `Except String`; the returned
  list is the list of deleted paths, in deletion order.
* `extract_frames` / `main_pipeline` model `extract_frames` and the
  sequencing in `main`.
-/

attribute [local semireducible] Rat.inv Rat.mul

/-- Decidable equality for `Except`, needed to evaluate the model's
results on concrete inputs. -/
instance instDecEqExcept {ε α : Type} [DecidableEq ε] [DecidableEq α] :
    DecidableEq (Except ε α) := fun a b =>
  match a, b with
  | .error x, .error y =>
    if h : x = y then .isTrue (by rw [h]) else .isFalse (fun hc => by cases hc; exact h rfl)
  | .error _, .ok _ => .isFalse (fun hc => by cases hc)
  | .ok _, .error _ => .isFalse (fun hc => by cases hc)
  | .ok x, .ok y =>
    if h : x = y then .isTrue (by rw [h]) else .isFalse (fun hc => by cases hc; exact h rfl)

/-- An RGBA pixel value, one natural number per channel. -/
abbrev Pixel := ℕ × ℕ × ℕ × ℕ

/-- A decoded in-memory image: width, height and pixel grid
(models `image::DynamicImage` as consumed by `get_pixel`). -/
structure Image where
  width : ℕ
  height : ℕ
  pixels : ℕ → ℕ → Pixel

/-- Models `GenericImageView::dimensions`. -/
def Image.dimensions (img : Image) : ℕ × ℕ := (img.width, img.height)

/-- The nested loop of `are_images_similar`: for `x in 0..width`,
`y in 0..height`, increment `diff_count` when the pixels differ.
The bounds come from `img1.dimensions()`, exactly as in the source. -/
def diffCount (img1 img2 : Image) : ℕ :=
  (List.range img1.width).foldl
    (fun acc x =>
      (List.range img1.height).foldl
        (fun acc2 y => if img1.pixels x y ≠ img2.pixels x y then acc2 + 1 else acc2)
        acc)
    0

/-- `let total_pixels = width * height` (dimensions of `img1`). -/
def total_pixels (img1 : Image) : ℕ := img1.width * img1.height

/-- `let difference_ratio = (diff_count as f64) / (total_pixels as f64)`,
embedded over `ℚ`. -/
def difference_ratio (img1 img2 : Image) : ℚ :=
  (diffCount img1 img2 : ℚ) / (total_pixels img1 : ℚ)

/-- Models `are_images_similar`: dissimilar outright on a dimension
mismatch, otherwise compare the pixel-difference ratio to the threshold. -/
def are_images_similar (img1 img2 : Image) (threshold : ℚ) : Bool :=
  if img1.dimensions ≠ img2.dimensions then false
  else decide (difference_ratio img1 img2 ≤ threshold)

/-- One directory entry as seen by `process_frames`: its path, the result
of `Path::extension`, the outcome `image::open` would produce for it, and
the error, if any, that `fs::remove_file` would produce for it. -/
structure FrameFile where
  path : String
  ext : Option String
  decode : Except String Image
  removeErr : Option String

/-- The scan loop of `process_frames`: walk the sorted frame files,
carrying `last_image : Option Image`.  Each file is decoded (a decode
failure aborts with the wrapped message); when a previous image exists
and the current image is similar to it, the file is deleted (a removal
failure aborts).  `last_image` is then set to the current image in every
case, exactly as in the source.  Returns the deleted paths in order,
together with the error that aborted the scan, if any. -/
def runScan (threshold : ℚ) : Option Image → List FrameFile → List String × Option String
  | _, [] => ([], none)
  | lastImage, f :: rest =>
    match f.decode with
    | .error e => ([], some ("Error opening image: " ++ e))
    | .ok current =>
      match lastImage with
      | some last =>
        if are_images_similar last current threshold then
          match f.removeErr with
          | some e => ([], some e)
          | none =>
            let res := runScan threshold (some current) rest
            (f.path :: res.1, res.2)
        else runScan threshold (some current) rest
      | none => runScan threshold (some current) rest

/-- The `png`-extension filter of `process_frames`. -/
def pngOnly (files : List FrameFile) : List FrameFile :=
  files.filter (fun f => f.ext == some "png")

/-- Lexicographic comparison of character lists, the order in which
`Vec::<PathBuf>::sort` arranges the frame paths. -/
def lexLt : List Char → List Char → Bool
  | [], [] => false
  | [], _ :: _ => true
  | _ :: _, [] => false
  | a :: as, b :: bs =>
    if a < b then true else if b < a then false else lexLt as bs

/-- Strict lexicographic order on frame-file paths. -/
def pathLt (a b : FrameFile) : Prop := lexLt a.path.data b.path.data = true

/-- The comparison used to sort frame files: lexicographic order on
paths (models `Vec::<PathBuf>::sort`). -/
def pathLe (a b : FrameFile) : Prop := lexLt b.path.data a.path.data = false

instance : DecidableRel pathLt := fun a b =>
  inferInstanceAs (Decidable (lexLt a.path.data b.path.data = true))

instance : DecidableRel pathLe := fun a b =>
  inferInstanceAs (Decidable (lexLt b.path.data a.path.data = false))

/-- `frame_files.sort()`. -/
def sortFiles (files : List FrameFile) : List FrameFile :=
  files.insertionSort pathLe

/-- Models `process_frames`.  The argument is the outcome of
`fs::read_dir`: either a directory error, or the entry list where `none`
stands for an entry that could not be read (dropped by
`filter_map(Result::ok)`).  Returns the deleted paths, or the error that
aborted the run. -/
def process_frames (dir : Except String (List (Option FrameFile))) (threshold : ℚ) :
    Except String (List String) :=
  match dir with
  | .error e => .error e
  | .ok entries =>
    let files := entries.filterMap id
    match runScan threshold none (sortFiles (pngOnly files)) with
    | (ds, none) => .ok ds
    | (_, some e) => .error e

/-- The environment `extract_frames` runs in: whether the output
directory exists, the outcome of `fs::create_dir`, and the outcome of
spawning ffmpeg (`Except` error on launch failure, otherwise
`status.success()`). -/
structure ExtractEnv where
  dirExists : Bool
  createDir : Except String Unit
  spawn : Except String Bool

/-- Models `extract_frames`: create the directory if absent (failure
propagates), spawn ffmpeg (launch failure propagates), then report the
logged message — a non-zero exit only logs `ffmpeg process failed` and
still returns `Ok(())`. -/
def extract_frames (env : ExtractEnv) : Except String String :=
  match (if env.dirExists then Except.ok () else env.createDir) with
  | .error e => .error e
  | .ok () =>
    match env.spawn with
    | .error e => .error e
    | .ok success =>
      .ok (if success then "Frames extracted successfully." else "ffmpeg process failed")

/-- The sequencing in `main`: extraction first, then the scan with the
fixed threshold `0.01`; each phase's error propagates. -/
def main_pipeline (env : ExtractEnv) (dir : Except String (List (Option FrameFile))) :
    Except String (String × List String) :=
  match extract_frames env with
  | .error e => .error e
  | .ok log =>
    match process_frames dir (1 / 100) with
    | .error e => .error e
    | .ok ds => .ok (log, ds)

/-- The files left on disk after deleting the paths in `ds`. -/
def survivors (files : List FrameFile) (ds : List String) : List FrameFile :=
  files.filter (fun f => !(ds.contains f.path))

/-- The paths left on disk after deleting the paths in `ds`. -/
def remainingPaths (files : List FrameFile) (ds : List String) : List String :=
  (files.map (fun f => f.path)).filter (fun p => !(ds.contains p))

/-- A frame list is a no-similarity chain for a starting baseline: each
file decodes, is dissimilar to the preceding image (when one exists), and
the rest is a chain from its own image.  A scan over such a list deletes
nothing. -/
def survChain (t : ℚ) : Option Image → List FrameFile → Prop
  | _, [] => True
  | b, f :: rest =>
    ∃ img, f.decode = .ok img ∧
      (∀ prev, b = some prev → are_images_similar prev img t = false) ∧
      survChain t (some img) rest

/-- Modelled from the spec: the scan loop as the specification describes
it, where a deleted frame does NOT replace the baseline (`the old
baseline remains the comparison point for the next frame`).  It exists
only to be compared against `runScan`, which models the source. -/
def runScanSpecBaseline (threshold : ℚ) :
    Option Image → List FrameFile → List String × Option String
  | _, [] => ([], none)
  | lastImage, f :: rest =>
    match f.decode with
    | .error e => ([], some ("Error opening image: " ++ e))
    | .ok current =>
      match lastImage with
      | some last =>
        if are_images_similar last current threshold then
          match f.removeErr with
          | some e => ([], some e)
          | none =>
            let res := runScanSpecBaseline threshold (some last) rest
            (f.path :: res.1, res.2)
        else runScanSpecBaseline threshold (some current) rest
      | none => runScanSpecBaseline threshold (some current) rest

/-! ### Order lemmas for the path comparison -/

theorem lexLt_irrefl : ∀ l : List Char, lexLt l l = false
  | [] => rfl
  | a :: as => by simp [lexLt, lexLt_irrefl as]

theorem lexLt_asymm : ∀ {l₁ l₂ : List Char}, lexLt l₁ l₂ = true → lexLt l₂ l₁ = false
  | [], [], h => by simp [lexLt] at h
  | [], _ :: _, _ => rfl
  | _ :: _, [], h => by simp [lexLt] at h
  | a :: as, b :: bs, h => by
    by_cases hab : a < b
    · simp [lexLt, asymm hab, hab]
    · by_cases hba : b < a
      · simp [lexLt, hab, hba] at h
      · simp only [lexLt, if_neg hab, if_neg hba] at h
        simp [lexLt, hab, hba, lexLt_asymm h]

theorem lexLt_trans : ∀ {l₁ l₂ l₃ : List Char},
    lexLt l₁ l₂ = true → lexLt l₂ l₃ = true → lexLt l₁ l₃ = true
  | [], [], _, h₁, _ => by simp [lexLt] at h₁
  | [], _ :: _, [], _, h₂ => by simp [lexLt] at h₂
  | [], _ :: _, _ :: _, _, _ => rfl
  | _ :: _, [], _, h₁, _ => by simp [lexLt] at h₁
  | _ :: _, _ :: _, [], _, h₂ => by simp [lexLt] at h₂
  | a :: as, b :: bs, c :: cs, h₁, h₂ => by
    by_cases hab : a < b
    · by_cases hbc : b < c
      · simp [lexLt, lt_trans hab hbc]
      · by_cases hcb : c < b
        · simp [lexLt, hbc, hcb] at h₂
        · have hbceq : b = c := le_antisymm (not_lt.1 hcb) (not_lt.1 hbc)
          simp [lexLt, hbceq ▸ hab]
    · by_cases hba : b < a
      · simp [lexLt, hab, hba] at h₁
      · have habeq : a = b := le_antisymm (not_lt.1 hba) (not_lt.1 hab)
        simp only [lexLt, if_neg hab, if_neg hba] at h₁
        by_cases hbc : b < c
        · simp [lexLt, habeq ▸ hbc]
        · by_cases hcb : c < b
          · simp [lexLt, hbc, hcb] at h₂
          · simp only [lexLt, if_neg hbc, if_neg hcb] at h₂
            simp only [lexLt, habeq, if_neg hbc, if_neg hcb]
            exact lexLt_trans h₁ h₂

theorem lexLt_eq_of_not : ∀ {l₁ l₂ : List Char},
    lexLt l₁ l₂ = false → lexLt l₂ l₁ = false → l₁ = l₂
  | [], [], _, _ => rfl
  | [], _ :: _, h₁, _ => by simp [lexLt] at h₁
  | _ :: _, [], _, h₂ => by simp [lexLt] at h₂
  | a :: as, b :: bs, h₁, h₂ => by
    by_cases hab : a < b
    · simp [lexLt, hab] at h₁
    · by_cases hba : b < a
      · simp [lexLt, hba] at h₂
      · have habeq : a = b := le_antisymm (not_lt.1 hba) (not_lt.1 hab)
        simp only [lexLt, if_neg hab, if_neg hba] at h₁
        simp only [lexLt, if_neg hba, if_neg hab] at h₂
        rw [habeq, lexLt_eq_of_not h₁ h₂]

instance : IsTotal FrameFile pathLe :=
  ⟨fun a b => by
    by_cases h : lexLt a.path.data b.path.data = true
    · exact Or.inl (lexLt_asymm h)
    · exact Or.inr (by simpa using h)⟩

instance : IsTrans FrameFile pathLe :=
  ⟨fun a b c h₁ h₂ => by
    unfold pathLe at *
    by_cases hca : lexLt c.path.data a.path.data = true
    · by_cases hbc : lexLt b.path.data c.path.data = true
      · exact absurd (lexLt_trans hbc hca) (by simp [h₁])
      · have : b.path.data = c.path.data :=
          lexLt_eq_of_not (by simpa using hbc) h₂
        exact absurd (this ▸ hca) (by simp [h₁])
    · exact (by simpa using hca)⟩

instance : IsAntisymm FrameFile pathLt :=
  ⟨fun a b h₁ h₂ => absurd h₂ (by simp [pathLt, lexLt_asymm h₁])⟩

theorem pathLt_of_le_of_ne {a b : FrameFile} (h : pathLe a b) (hne : a.path ≠ b.path) :
    pathLt a b := by
  unfold pathLe at h
  unfold pathLt
  by_cases hab : lexLt a.path.data b.path.data = true
  · exact hab
  · have hdata : a.path.data = b.path.data :=
      lexLt_eq_of_not (by simpa using hab) h
    exact absurd (congrArg String.mk hdata) hne

/-! ### Counting the differing pixels -/

theorem foldl_ite_count {α : Type} (p : α → Prop) [DecidablePred p] :
    ∀ (l : List α) (n : ℕ),
      l.foldl (fun acc a => if p a then acc + 1 else acc) n
        = n + l.countP (fun a => decide (p a))
  | [], n => by simp
  | a :: l, n => by
    simp only [List.foldl_cons, List.countP_cons]
    by_cases h : p a
    · rw [if_pos h, foldl_ite_count p l]
      simp [h]
      omega
    · rw [if_neg h, foldl_ite_count p l]
      simp [h]

theorem foldl_inner_sum (q : ℕ → ℕ → Prop) [∀ x y, Decidable (q x y)] (h : ℕ) :
    ∀ (xs : List ℕ) (n : ℕ),
      xs.foldl
        (fun acc x =>
          (List.range h).foldl (fun acc2 y => if q x y then acc2 + 1 else acc2) acc) n
        = n + (xs.map (fun x => (List.range h).countP (fun y => decide (q x y)))).sum
  | [], n => by simp
  | x :: xs, n => by
    simp only [List.foldl_cons, List.map_cons, List.sum_cons]
    rw [foldl_inner_sum q h xs, foldl_ite_count]
    omega

theorem countP_range_eq_sum (p : ℕ → Prop) [DecidablePred p] :
    ∀ n : ℕ,
      (List.range n).countP (fun y => decide (p y)) = ∑ y ∈ Finset.range n, if p y then 1 else 0
  | 0 => by simp
  | n + 1 => by
    rw [List.range_succ, List.countP_append, Finset.sum_range_succ, countP_range_eq_sum p n]
    by_cases h : p n <;> simp [List.countP_cons, h]

theorem map_sum_range (f : ℕ → ℕ) :
    ∀ n : ℕ, ((List.range n).map f).sum = ∑ x ∈ Finset.range n, f x
  | 0 => by simp
  | n + 1 => by
    rw [List.range_succ, List.map_append, List.sum_append, Finset.sum_range_succ,
      map_sum_range f n]
    simp

theorem diffCount_eq_sum (img1 img2 : Image) :
    diffCount img1 img2
      = ∑ x ∈ Finset.range img1.width, ∑ y ∈ Finset.range img1.height,
          if img1.pixels x y ≠ img2.pixels x y then 1 else 0 := by
  unfold diffCount
  rw [foldl_inner_sum (fun x y => img1.pixels x y ≠ img2.pixels x y) img1.height,
    map_sum_range]
  simp only [Nat.zero_add]
  exact Finset.sum_congr rfl fun x _ =>
    countP_range_eq_sum (fun y => img1.pixels x y ≠ img2.pixels x y) img1.height

theorem diffCount_eq_card (img1 img2 : Image) :
    diffCount img1 img2
      = ((Finset.range img1.width ×ˢ Finset.range img1.height).filter
          (fun c => img1.pixels c.1 c.2 ≠ img2.pixels c.1 c.2)).card := by
  rw [diffCount_eq_sum, Finset.card_filter]
  exact (Finset.sum_product' _ _ _).symm

theorem diffCount_le_total (img1 img2 : Image) :
    diffCount img1 img2 ≤ total_pixels img1 := by
  rw [diffCount_eq_card, total_pixels]
  calc ((Finset.range img1.width ×ˢ Finset.range img1.height).filter
          (fun c => img1.pixels c.1 c.2 ≠ img2.pixels c.1 c.2)).card
      ≤ (Finset.range img1.width ×ˢ Finset.range img1.height).card :=
        Finset.card_filter_le _ _
    _ = img1.width * img1.height := by
        rw [Finset.card_product, Finset.card_range, Finset.card_range]

theorem diffCount_eq_zero_iff (img1 img2 : Image) :
    diffCount img1 img2 = 0
      ↔ ∀ x < img1.width, ∀ y < img1.height, img1.pixels x y = img2.pixels x y := by
  rw [diffCount_eq_card, Finset.card_eq_zero, Finset.filter_eq_empty_iff]
  constructor
  · intro hemp x hx y hy
    have hxy : ((x, y) : ℕ × ℕ) ∈ Finset.range img1.width ×ˢ Finset.range img1.height :=
      Finset.mem_product.2 ⟨Finset.mem_range.2 hx, Finset.mem_range.2 hy⟩
    have := hemp hxy
    simpa using this
  · rintro hall ⟨x, y⟩ hmem
    simp only [Finset.mem_product, Finset.mem_range] at hmem
    simp [hall x hmem.1 y hmem.2]

theorem diffCount_eq_total_of_all (img1 img2 : Image)
    (h : ∀ x < img1.width, ∀ y < img1.height, img1.pixels x y ≠ img2.pixels x y) :
    diffCount img1 img2 = total_pixels img1 := by
  rw [diffCount_eq_card, total_pixels, Finset.filter_true_of_mem, Finset.card_product,
    Finset.card_range, Finset.card_range]
  rintro ⟨x, y⟩ hmem
  simp only [Finset.mem_product, Finset.mem_range] at hmem
  exact h x hmem.1 y hmem.2

/-! ### Basic facts about the similarity check -/

theorem similar_iff (img1 img2 : Image) (t : ℚ) :
    are_images_similar img1 img2 t = true
      ↔ img1.dimensions = img2.dimensions ∧ difference_ratio img1 img2 ≤ t := by
  unfold are_images_similar
  by_cases h : img1.dimensions = img2.dimensions <;> simp [h]

theorem similar_false_of_dims {img1 img2 : Image}
    (h : img1.dimensions ≠ img2.dimensions) (t : ℚ) :
    are_images_similar img1 img2 t = false := by
  unfold are_images_similar
  simp [h]

theorem ratio_nonneg (img1 img2 : Image) : 0 ≤ difference_ratio img1 img2 :=
  div_nonneg (Nat.cast_nonneg _) (Nat.cast_nonneg _)

theorem ratio_eq_zero_iff (img1 img2 : Image) :
    difference_ratio img1 img2 = 0 ↔ diffCount img1 img2 = 0 ∨ total_pixels img1 = 0 := by
  unfold difference_ratio
  rw [div_eq_zero_iff]
  simp

theorem diffCount_zero_of_total_zero (img1 img2 : Image) (h : total_pixels img1 = 0) :
    diffCount img1 img2 = 0 :=
  Nat.le_zero.1 (h ▸ diffCount_le_total img1 img2)

theorem ratio_zero_of_diffCount_zero {img1 img2 : Image} (h : diffCount img1 img2 = 0) :
    difference_ratio img1 img2 = 0 := by
  unfold difference_ratio
  rw [h]
  simp

theorem similar_of_identical {img1 img2 : Image}
    (hdim : img1.dimensions = img2.dimensions) (hpix : diffCount img1 img2 = 0)
    {t : ℚ} (ht : 0 ≤ t) : are_images_similar img1 img2 t = true :=
  (similar_iff _ _ _).2 ⟨hdim, by rw [ratio_zero_of_diffCount_zero hpix]; exact ht⟩

theorem similar_false_of_ratio {img1 img2 : Image} {t : ℚ}
    (h : ¬ difference_ratio img1 img2 ≤ t) :
    are_images_similar img1 img2 t = false := by
  rw [← Bool.not_eq_true, similar_iff]
  tauto

theorem ratio_eq_one_of_all {img1 img2 : Image} (hd : diffCount img1 img2 = total_pixels img1)
    (hpos : 0 < total_pixels img1) : difference_ratio img1 img2 = 1 := by
  unfold difference_ratio
  rw [hd]
  have : (total_pixels img1 : ℚ) ≠ 0 := by
    exact_mod_cast Nat.pos_iff_ne_zero.1 hpos
  exact div_self this

theorem diffCount_symm {img1 img2 : Image} (h : img1.dimensions = img2.dimensions) :
    diffCount img1 img2 = diffCount img2 img1 := by
  have hw : img1.width = img2.width := congrArg Prod.fst h
  have hh : img1.height = img2.height := congrArg Prod.snd h
  rw [diffCount_eq_card, diffCount_eq_card, ← hw, ← hh]
  exact congrArg Finset.card (Finset.filter_congr (fun c _ => by
    constructor
    · exact fun hne => hne.symm
    · exact fun hne => hne.symm))

theorem ratio_symm {img1 img2 : Image} (h : img1.dimensions = img2.dimensions) :
    difference_ratio img1 img2 = difference_ratio img2 img1 := by
  have hw : img1.width = img2.width := congrArg Prod.fst h
  have hh : img1.height = img2.height := congrArg Prod.snd h
  unfold difference_ratio total_pixels
  rw [diffCount_symm h, hw, hh]

theorem similar_symm (img1 img2 : Image) (t : ℚ) :
    are_images_similar img1 img2 t = are_images_similar img2 img1 t := by
  by_cases h : img1.dimensions = img2.dimensions
  · unfold are_images_similar
    rw [if_neg (by simp [h]), if_neg (by simp [h.symm]), ratio_symm h]
  · rw [similar_false_of_dims h, similar_false_of_dims (Ne.symm h)]

theorem similar_nonpos_iff {t : ℚ} (ht : t ≤ 0) (img1 img2 : Image) :
    are_images_similar img1 img2 t = true
      ↔ t = 0 ∧ img1.dimensions = img2.dimensions ∧ diffCount img1 img2 = 0 := by
  rw [similar_iff]
  constructor
  · rintro ⟨hdim, hle⟩
    have h0 : difference_ratio img1 img2 = 0 :=
      le_antisymm (hle.trans ht) (ratio_nonneg _ _)
    have ht0 : t = 0 := le_antisymm ht (h0 ▸ hle)
    rcases (ratio_eq_zero_iff img1 img2).1 h0 with hd | htot
    · exact ⟨ht0, hdim, hd⟩
    · exact ⟨ht0, hdim, diffCount_zero_of_total_zero _ _ htot⟩
  · rintro ⟨ht0, hdim, hd⟩
    exact ⟨hdim, by rw [ratio_zero_of_diffCount_zero hd, ht0]⟩

theorem similar_trans_nonpos {t : ℚ} (ht : t ≤ 0) {a b c : Image}
    (h₁ : are_images_similar a b t = true) (h₂ : are_images_similar b c t = true) :
    are_images_similar a c t = true := by
  rw [similar_nonpos_iff ht] at h₁ h₂ ⊢
  obtain ⟨ht0, hd₁, hc₁⟩ := h₁
  obtain ⟨_, hd₂, hc₂⟩ := h₂
  refine ⟨ht0, hd₁.trans hd₂, ?_⟩
  rw [diffCount_eq_zero_iff] at hc₁ hc₂ ⊢
  intro x hx y hy
  have hw : a.width = b.width := congrArg Prod.fst hd₁
  have hh : a.height = b.height := congrArg Prod.snd hd₁
  rw [hc₁ x hx y hy]
  exact hc₂ x (hw ▸ hx) y (hh ▸ hy)

/-! ### Step equations for the scan loop -/

theorem runScan_decode_err (t : ℚ) (b : Option Image) {f : FrameFile} (rest : List FrameFile)
    {e : String} (hdec : f.decode = .error e) :
    runScan t b (f :: rest) = ([], some ("Error opening image: " ++ e)) := by
  cases b <;> rw [runScan, hdec]

theorem runScan_first (t : ℚ) {f : FrameFile} (rest : List FrameFile) {img : Image}
    (hdec : f.decode = .ok img) :
    runScan t none (f :: rest) = runScan t (some img) rest := by
  rw [runScan, hdec]

theorem runScan_keep (t : ℚ) {last : Image} {f : FrameFile} (rest : List FrameFile)
    {img : Image} (hdec : f.decode = .ok img)
    (hsim : are_images_similar last img t = false) :
    runScan t (some last) (f :: rest) = runScan t (some img) rest := by
  rw [runScan, hdec]
  simp [hsim]

theorem runScan_delete (t : ℚ) {last : Image} {f : FrameFile} (rest : List FrameFile)
    {img : Image} (hdec : f.decode = .ok img)
    (hsim : are_images_similar last img t = true) (hrem : f.removeErr = none) :
    runScan t (some last) (f :: rest)
      = (f.path :: (runScan t (some img) rest).1, (runScan t (some img) rest).2) := by
  rw [runScan, hdec]
  simp [hsim, hrem]

theorem runScan_delete_err (t : ℚ) {last : Image} {f : FrameFile} (rest : List FrameFile)
    {img : Image} {e : String} (hdec : f.decode = .ok img)
    (hsim : are_images_similar last img t = true) (hrem : f.removeErr = some e) :
    runScan t (some last) (f :: rest) = ([], some e) := by
  rw [runScan, hdec]
  simp [hsim, hrem]

theorem runScan_deleted_sub (t : ℚ) :
    ∀ (l : List FrameFile) (b : Option Image) (p : String),
      p ∈ (runScan t b l).1 → p ∈ l.map (fun f => f.path)
  | [], _, p => by simp [runScan]
  | f :: rest, b, p => by
    intro hp
    rcases hdec : f.decode with e | img
    · rw [runScan_decode_err t b rest hdec] at hp
      simp at hp
    · rcases b with _ | last
      · rw [runScan_first t rest hdec] at hp
        simpa using Or.inr (runScan_deleted_sub t rest (some img) p hp)
      · by_cases hsim : are_images_similar last img t = true
        · rcases hrem : f.removeErr with _ | e
          · rw [runScan_delete t rest hdec hsim hrem] at hp
            rcases List.mem_cons.1 hp with hfp | hfp
            · simp [hfp]
            · simpa using Or.inr (runScan_deleted_sub t rest (some img) p hfp)
          · rw [runScan_delete_err t rest hdec hsim hrem] at hp
            simp at hp
        · rw [runScan_keep t rest hdec (by simpa using hsim)] at hp
          simpa using Or.inr (runScan_deleted_sub t rest (some img) p hp)

/-! ### Chains of dissimilar frames -/

theorem runScan_of_survChain (t : ℚ) :
    ∀ (l : List FrameFile) (b : Option Image), survChain t b l → runScan t b l = ([], none)
  | [], b, _ => by cases b <;> rfl
  | f :: rest, b, h => by
    obtain ⟨img, hdec, hns, hrest⟩ := h
    rcases b with _ | last
    · rw [runScan_first t rest hdec]
      exact runScan_of_survChain t rest (some img) hrest
    · rw [runScan_keep t rest hdec (hns last rfl)]
      exact runScan_of_survChain t rest (some img) hrest

theorem survChain_of_head (t : ℚ) {x y : Image}
    (hxy : ∀ c, are_images_similar y c t = true → are_images_similar x c t = true) :
    ∀ {l : List FrameFile}, survChain t (some x) l → survChain t (some y) l
  | [], _ => trivial
  | f :: rest, h => by
    obtain ⟨img, hdec, hns, hrest⟩ := h
    refine ⟨img, hdec, ?_, hrest⟩
    intro prev hprev
    have hpy : prev = y := (Option.some.inj hprev).symm
    subst hpy
    by_cases hcase : are_images_similar prev img t = true
    · exact absurd (hxy img hcase) (by simp [hns x rfl])
    · simpa using hcase

theorem survivors_cons_mem {f : FrameFile} {l : List FrameFile} {ds : List String}
    (h : f.path ∈ ds) : survivors (f :: l) ds = survivors l ds := by
  unfold survivors
  rw [List.filter_cons]
  simp [List.contains, h]

theorem survivors_cons_not {f : FrameFile} {l : List FrameFile} {ds : List String}
    (h : f.path ∉ ds) : survivors (f :: l) ds = f :: survivors l ds := by
  unfold survivors
  rw [List.filter_cons]
  simp [List.contains, h]

theorem survivors_congr {l : List FrameFile} {ds ds' : List String}
    (h : ∀ f ∈ l, f.path ∈ ds ↔ f.path ∈ ds') : survivors l ds = survivors l ds' := by
  unfold survivors
  exact List.filter_congr (fun f hf => by simp [List.contains, h f hf])

theorem survChain_of_runScan {t : ℚ} (ht : t ≤ 0) :
    ∀ (l : List FrameFile) (b : Option Image) (ds : List String),
      (l.map (fun f => f.path)).Nodup → runScan t b l = (ds, none) →
      survChain t b (survivors l ds)
  | [], b, ds, _, h => by
    have hds : ds = [] := by
      cases b <;> simpa [runScan, Prod.ext_iff] using congrArg Prod.fst h
    subst hds
    cases b <;> trivial
  | f :: rest, b, ds, hnd, h => by
    have hnd' : (rest.map (fun f => f.path)).Nodup := (List.nodup_cons.1 hnd).2
    have hfnotin : f.path ∉ rest.map (fun g => g.path) := (List.nodup_cons.1 hnd).1
    rcases hdec : f.decode with e | img
    · rw [runScan_decode_err t b rest hdec] at h
      simp [Prod.ext_iff] at h
    · rcases b with _ | last
      · rw [runScan_first t rest hdec] at h
        have hfds : f.path ∉ ds := fun hin =>
          hfnotin (runScan_deleted_sub t rest (some img) f.path (by rw [h]; exact hin))
        rw [survivors_cons_not hfds]
        exact ⟨img, hdec, fun prev hprev => Option.noConfusion hprev,
          survChain_of_runScan ht rest (some img) ds hnd' h⟩
      · by_cases hsim : are_images_similar last img t = true
        · rcases hrem : f.removeErr with _ | e
          · rw [runScan_delete t rest hdec hsim hrem] at h
            injection h with hds herr
            have hrest_eq : runScan t (some img) rest = ((runScan t (some img) rest).1, none) := by
              rw [Prod.ext_iff]
              exact ⟨rfl, herr⟩
            have hmem : f.path ∈ ds := by
              rw [← hds]
              exact List.mem_cons_self _ _
            rw [survivors_cons_mem hmem]
            have hcongr : survivors rest ds = survivors rest (runScan t (some img) rest).1 := by
              refine survivors_congr (fun g hg => ?_)
              rw [← hds]
              constructor
              · intro hin
                rcases List.mem_cons.1 hin with heq | hin'
                · exact absurd (heq ▸ List.mem_map_of_mem (fun x => x.path) hg) hfnotin
                · exact hin'
              · exact fun hin => List.mem_cons_of_mem _ hin
            rw [hcongr]
            have ih := survChain_of_runScan ht rest (some img) (runScan t (some img) rest).1
              hnd' hrest_eq
            refine survChain_of_head t (fun c hc => ?_) ih
            have hsymm : are_images_similar img last t = true := by
              rw [similar_symm]
              exact hsim
            exact similar_trans_nonpos ht hsymm hc
          · rw [runScan_delete_err t rest hdec hsim hrem] at h
            simp [Prod.ext_iff] at h
        · have hsim' : are_images_similar last img t = false := by simpa using hsim
          rw [runScan_keep t rest hdec hsim'] at h
          have hfds : f.path ∉ ds := fun hin =>
            hfnotin (runScan_deleted_sub t rest (some img) f.path (by rw [h]; exact hin))
          rw [survivors_cons_not hfds]
          refine ⟨img, hdec, ?_, survChain_of_runScan ht rest (some img) ds hnd' h⟩
          intro prev hprev
          have : prev = last := (Option.some.inj hprev).symm
          rw [this]
          exact hsim'

/-! ### The scan at the directory level -/

theorem process_frames_ok_iff (entries : List (Option FrameFile)) (t : ℚ) (ds : List String) :
    process_frames (.ok entries) t = .ok ds
      ↔ runScan t none (sortFiles (pngOnly (entries.filterMap id))) = (ds, none) := by
  unfold process_frames
  rcases hr : runScan t none (sortFiles (pngOnly (entries.filterMap id))) with ⟨ds', err⟩
  rcases err with _ | e
  · simp only [hr]
    constructor
    · intro hok
      rw [Except.ok.injEq] at hok
      rw [hok]
    · intro hpair
      injection hpair with h1 _
      rw [h1]
  · simp only [hr]
    constructor
    · intro hok
      cases hok
    · intro hpair
      injection hpair with _ h2
      cases h2

theorem process_frames_err_iff (entries : List (Option FrameFile)) (t : ℚ) (e : String) :
    process_frames (.ok entries) t = .error e
      ↔ (runScan t none (sortFiles (pngOnly (entries.filterMap id)))).2 = some e := by
  unfold process_frames
  rcases hr : runScan t none (sortFiles (pngOnly (entries.filterMap id))) with ⟨ds', err⟩
  rcases err with _ | e'
  · simp only [hr]
    constructor
    · intro hok
      cases hok
    · intro hpair
      cases hpair
  · simp only [hr]
    constructor
    · intro herr
      rw [Except.error.injEq] at herr
      rw [herr]
    · intro hpair
      injection hpair with h1
      rw [h1]

theorem nodup_paths_pngOnly {files : List FrameFile}
    (h : (files.map (fun f => f.path)).Nodup) :
    ((pngOnly files).map (fun f => f.path)).Nodup := by
  unfold pngOnly
  exact h.sublist ((List.filter_sublist files).map (fun f => f.path))

theorem nodup_paths_sortFiles {files : List FrameFile}
    (h : (files.map (fun f => f.path)).Nodup) :
    ((sortFiles files).map (fun f => f.path)).Nodup :=
  (((List.perm_insertionSort pathLe files).map (fun f => f.path)).nodup_iff).2 h

theorem sorted_sortFiles (files : List FrameFile) : List.Sorted pathLe (sortFiles files) :=
  List.sorted_insertionSort pathLe files

theorem sortFiles_of_sorted {files : List FrameFile} (h : List.Sorted pathLe files) :
    sortFiles files = files :=
  h.insertionSort_eq

theorem sorted_lt_of_sorted_nodup {l : List FrameFile} (hs : List.Sorted pathLe l)
    (hnd : (l.map (fun f => f.path)).Nodup) : List.Sorted pathLt l := by
  have hne : l.Pairwise (fun a b => a.path ≠ b.path) := by
    rw [List.Nodup, List.pairwise_map] at hnd
    exact hnd
  exact (hs.and hne).imp (fun hab => pathLt_of_le_of_ne hab.1 hab.2)

theorem pngOnly_survivors (files : List FrameFile) (ds : List String) :
    pngOnly (survivors files ds) = survivors (pngOnly files) ds := by
  unfold pngOnly survivors
  rw [List.filter_filter, List.filter_filter]
  exact List.filter_congr (fun f _ => Bool.and_comm _ _)

theorem sortFiles_survivors {files : List FrameFile} (ds : List String)
    (hnd : (files.map (fun f => f.path)).Nodup) :
    sortFiles (survivors files ds) = survivors (sortFiles files) ds := by
  have hperm : List.Perm (sortFiles (survivors files ds)) (survivors (sortFiles files) ds) :=
    (List.perm_insertionSort pathLe _).trans
      ((List.perm_insertionSort pathLe files).filter _).symm
  have hs₁ : List.Sorted pathLt (sortFiles (survivors files ds)) :=
    sorted_lt_of_sorted_nodup (sorted_sortFiles _)
      (nodup_paths_sortFiles (hnd.sublist ((List.filter_sublist files).map _)))
  have hs₂ : List.Sorted pathLt (survivors (sortFiles files) ds) :=
    sorted_lt_of_sorted_nodup ((sorted_sortFiles files).filter _)
      ((nodup_paths_sortFiles hnd).sublist ((List.filter_sublist _).map _))
  exact List.eq_of_perm_of_sorted hperm hs₁ hs₂

theorem filterMap_map_some (l : List FrameFile) : (l.map some).filterMap id = l := by
  induction l with
  | nil => rfl
  | cons f rest ih => simp [ih]

theorem pathLe_of_pathLt {a b : FrameFile} (h : pathLt a b) : pathLe a b :=
  lexLt_asymm h

theorem ne_of_pathLt {a b : FrameFile} (h : pathLt a b) : a.path ≠ b.path := by
  intro he
  unfold pathLt at h
  rw [he] at h
  simp [lexLt_irrefl] at h

/-! ### Claims -/

/-- Claim C4: for every pair of images whose dimensions differ, the
similarity check returns false for every threshold (threshold 1
included); the result does not depend on the pixel grids at all. -/
theorem C4_dims_mismatch (img1 img2 : Image) (t : ℚ)
    (h : img1.dimensions ≠ img2.dimensions) :
    are_images_similar img1 img2 t = false
      ∧ ∀ p q : ℕ → ℕ → Pixel,
          are_images_similar ⟨img1.width, img1.height, p⟩ ⟨img2.width, img2.height, q⟩ t
            = false :=
  ⟨similar_false_of_dims h t, fun p q =>
    @similar_false_of_dims ⟨img1.width, img1.height, p⟩ ⟨img2.width, img2.height, q⟩ h t⟩

/-- Witness for C4: a 1×1 and a 2×2 image are never similar, even at
threshold 1. -/
theorem C4_witness :
    are_images_similar ⟨1, 1, fun _ _ => (0, 0, 0, 0)⟩ ⟨2, 2, fun _ _ => (0, 0, 0, 0)⟩ 1
      = false :=
  (C4_dims_mismatch ⟨1, 1, fun _ _ => (0, 0, 0, 0)⟩ ⟨2, 2, fun _ _ => (0, 0, 0, 0)⟩ 1
    (by decide)).1

/-- Claim C5: on equal-dimension images the difference ratio equals
`k / N` exactly, where `k` is the number of grid coordinates whose pixels
differ and `N = width * height`; identical images give ratio exactly `0`
and are similar at every threshold `≥ 0`. -/
theorem C5_ratio_exact (img1 img2 : Image) (k : ℕ)
    (hdim : img1.dimensions = img2.dimensions)
    (hk : k = ((Finset.range img1.width ×ˢ Finset.range img1.height).filter
        (fun c => img1.pixels c.1 c.2 ≠ img2.pixels c.1 c.2)).card) :
    difference_ratio img1 img2 = (k : ℚ) / ((img1.width * img1.height : ℕ) : ℚ)
      ∧ ((∀ x < img1.width, ∀ y < img1.height, img1.pixels x y = img2.pixels x y) →
          difference_ratio img1 img2 = 0
            ∧ ∀ t : ℚ, 0 ≤ t → are_images_similar img1 img2 t = true) := by
  constructor
  · unfold difference_ratio total_pixels
    rw [diffCount_eq_card, ← hk]
  · intro hident
    have hzero : diffCount img1 img2 = 0 := (diffCount_eq_zero_iff img1 img2).2 hident
    exact ⟨ratio_zero_of_diffCount_zero hzero,
      fun t ht => similar_of_identical hdim hzero ht⟩

/-- Witness for C5: two 2×2 images differing in exactly one pixel have
ratio `1/4`, and the identical pair has ratio `0`. -/
theorem C5_witness :
    difference_ratio ⟨2, 2, fun _ _ => (0, 0, 0, 0)⟩
        ⟨2, 2, fun x y => (if x = 0 ∧ y = 0 then 1 else 0, 0, 0, 0)⟩
      = ((1 : ℕ) : ℚ) / (((2 * 2 : ℕ) : ℕ) : ℚ) :=
  (C5_ratio_exact ⟨2, 2, fun _ _ => (0, 0, 0, 0)⟩
    ⟨2, 2, fun x y => (if x = 0 ∧ y = 0 then 1 else 0, 0, 0, 0)⟩ 1
    (by decide) (by decide)).1

/-- Claim C8: similarity is monotone in the threshold: a pair similar
under `t1 < t2` is similar under `t2` as well. -/
theorem C8_threshold_monotone (img1 img2 : Image) (t1 t2 : ℚ) (hlt : t1 < t2)
    (h : are_images_similar img1 img2 t1 = true) :
    are_images_similar img1 img2 t2 = true := by
  rw [similar_iff] at h ⊢
  exact ⟨h.1, h.2.trans hlt.le⟩

/-- Witness for C8: an identical pair similar at `0` is similar at `1`. -/
theorem C8_witness :
    are_images_similar ⟨1, 1, fun _ _ => (0, 0, 0, 0)⟩ ⟨1, 1, fun _ _ => (0, 0, 0, 0)⟩ 1
      = true :=
  C8_threshold_monotone ⟨1, 1, fun _ _ => (0, 0, 0, 0)⟩ ⟨1, 1, fun _ _ => (0, 0, 0, 0)⟩
    0 1 (by decide) (by decide)

/-- Claim C9: the similarity verdict is symmetric for every pair and
every threshold, and on equal-dimension pairs (where the source ever
computes it) the difference ratio itself is symmetric. -/
theorem C9_symmetric :
    (∀ (img1 img2 : Image) (t : ℚ),
        are_images_similar img1 img2 t = are_images_similar img2 img1 t)
      ∧ ∀ img1 img2 : Image, img1.dimensions = img2.dimensions →
          difference_ratio img1 img2 = difference_ratio img2 img1 :=
  ⟨similar_symm, fun _ _ h => ratio_symm h⟩

/-- Witness for C9: symmetry evaluated on a concrete pair. -/
theorem C9_witness :
    difference_ratio ⟨1, 1, fun _ _ => (0, 0, 0, 0)⟩ ⟨1, 1, fun _ _ => (1, 0, 0, 0)⟩
      = difference_ratio ⟨1, 1, fun _ _ => (1, 0, 0, 0)⟩ ⟨1, 1, fun _ _ => (0, 0, 0, 0)⟩ :=
  C9_symmetric.2 ⟨1, 1, fun _ _ => (0, 0, 0, 0)⟩ ⟨1, 1, fun _ _ => (1, 0, 0, 0)⟩ (by decide)

/-- Claim C1 (counterexample): with threshold `1/4` and three 4×1 frames
`a = 0000`, `b = 1000`, `c = 0100`, the code deletes only `b`: after the
deletion, `c` is compared against the deleted frame `b` (ratio `1/2`,
kept), not against the old baseline `a` — even though `c` is similar to
`a` (ratio `1/4`).  The scan the spec describes (baseline kept after a
deletion) deletes both `b` and `c`. -/
theorem C1_counterexample :
    runScan (1 / 4) none
        [⟨"a", some "png", .ok ⟨4, 1, fun _ _ => (0, 0, 0, 0)⟩, none⟩,
         ⟨"b", some "png", .ok ⟨4, 1, fun x _ => (if x = 0 then 1 else 0, 0, 0, 0)⟩, none⟩,
         ⟨"c", some "png", .ok ⟨4, 1, fun x _ => (if x = 1 then 1 else 0, 0, 0, 0)⟩, none⟩]
      = (["b"], none)
    ∧ runScanSpecBaseline (1 / 4) none
        [⟨"a", some "png", .ok ⟨4, 1, fun _ _ => (0, 0, 0, 0)⟩, none⟩,
         ⟨"b", some "png", .ok ⟨4, 1, fun x _ => (if x = 0 then 1 else 0, 0, 0, 0)⟩, none⟩,
         ⟨"c", some "png", .ok ⟨4, 1, fun x _ => (if x = 1 then 1 else 0, 0, 0, 0)⟩, none⟩]
      = (["b", "c"], none)
    ∧ are_images_similar ⟨4, 1, fun _ _ => (0, 0, 0, 0)⟩
        ⟨4, 1, fun x _ => (if x = 1 then 1 else 0, 0, 0, 0)⟩ (1 / 4) = true :=
  ⟨by decide, by decide, by decide⟩

/-- Claim C1 (amended): when a frame's difference ratio against the
previous image is within the threshold, its file is deleted, but the
baseline IS updated: the deleted frame's image — not the old baseline —
is the comparison point for the next frame. -/
theorem C1_baseline_updated (t : ℚ) (last img : Image) (f : FrameFile)
    (rest : List FrameFile) (hdec : f.decode = .ok img)
    (hsim : are_images_similar last img t = true) (hrem : f.removeErr = none) :
    runScan t (some last) (f :: rest)
      = (f.path :: (runScan t (some img) rest).1, (runScan t (some img) rest).2) :=
  runScan_delete t rest hdec hsim hrem

/-- Witness for C1 (amended): the deletion step evaluated at a concrete
frame. -/
theorem C1_witness :
    runScan 0 (some ⟨1, 1, fun _ _ => (0, 0, 0, 0)⟩)
        [⟨"a", some "png", .ok ⟨1, 1, fun _ _ => (0, 0, 0, 0)⟩, none⟩]
      = (["a"], none) :=
  C1_baseline_updated 0 ⟨1, 1, fun _ _ => (0, 0, 0, 0)⟩ ⟨1, 1, fun _ _ => (0, 0, 0, 0)⟩
    ⟨"a", some "png", .ok ⟨1, 1, fun _ _ => (0, 0, 0, 0)⟩, none⟩ [] rfl (by decide) rfl

/-- Claim C6 (counterexample): the wrapped decode error carries only the
decoder's own message — two runs failing on different files produce the
identical error text, so the context does not identify the failing
file. -/
theorem C6_counterexample :
    process_frames
        (.ok [some ⟨"frames/frame_0001.png", some "png", .error "bad header", none⟩]) (1 / 100)
      = .error "Error opening image: bad header"
    ∧ process_frames
        (.ok [some ⟨"frames/frame_0002.png", some "png", .error "bad header", none⟩]) (1 / 100)
      = .error "Error opening image: bad header" :=
  ⟨by decide, by decide⟩

/-- Claim C6 (amended): a directory read error, an image decode error and
a file deletion error each abort the whole scan by propagating the error;
the decode error is wrapped with the fixed context
`Error opening image: ` followed by the decoder's message (which does not
include the failing file's path). -/
theorem C6_fatal_errors :
    (∀ (e : String) (t : ℚ), process_frames (.error e) t = .error e)
      ∧ (∀ (t : ℚ) (b : Option Image) (f : FrameFile) (rest : List FrameFile) (e : String),
          f.decode = .error e →
          runScan t b (f :: rest) = ([], some ("Error opening image: " ++ e)))
      ∧ (∀ (t : ℚ) (last : Image) (f : FrameFile) (rest : List FrameFile)
          (img : Image) (e : String),
          f.decode = .ok img → are_images_similar last img t = true →
          f.removeErr = some e →
          runScan t (some last) (f :: rest) = ([], some e))
      ∧ (∀ (entries : List (Option FrameFile)) (t : ℚ) (e : String),
          (runScan t none (sortFiles (pngOnly (entries.filterMap id)))).2 = some e →
          process_frames (.ok entries) t = .error e) :=
  ⟨fun _ _ => rfl,
   fun t b _ rest e h => runScan_decode_err t b rest h,
   fun t _ _ rest _ _ h1 h2 h3 => runScan_delete_err t rest h1 h2 h3,
   fun entries t e h => (process_frames_err_iff entries t e).2 h⟩

/-- Witness for C6 (amended): the propagation facts evaluated on concrete
inputs. -/
theorem C6_witness :
    process_frames (.error "boom") (1 / 100) = .error "boom"
    ∧ runScan 0 none [⟨"a.png", some "png", .error "bad", none⟩]
        = ([], some ("Error opening image: " ++ "bad")) :=
  ⟨C6_fatal_errors.1 "boom" (1 / 100),
   C6_fatal_errors.2.1 0 none ⟨"a.png", some "png", .error "bad", none⟩ [] "bad" rfl⟩

/-- Claim C7: when the decoder process starts but exits with non-zero
status, `extract_frames` logs `ffmpeg process failed` yet returns
success, so the pipeline proceeds to the deduplication scan; only a
launch failure propagates as an error. -/
theorem C7_soft_failure (env : ExtractEnv) (dir : Except String (List (Option FrameFile)))
    (hdir : env.dirExists = true) :
    (env.spawn = .ok false →
      extract_frames env = .ok "ffmpeg process failed"
        ∧ main_pipeline env dir
            = (process_frames dir (1 / 100)).map (fun ds => ("ffmpeg process failed", ds)))
      ∧ (∀ e, env.spawn = .error e → extract_frames env = .error e) := by
  constructor
  · intro hspawn
    have hex : extract_frames env = .ok "ffmpeg process failed" := by
      unfold extract_frames
      rw [hdir, hspawn]
      rfl
    refine ⟨hex, ?_⟩
    unfold main_pipeline
    rw [hex]
    rcases hp : process_frames dir (1 / 100) with e | ds <;> simp [Except.map]
  · intro e hspawn
    unfold extract_frames
    rw [hdir, hspawn]
    rfl

/-- Witness for C7: a run whose decoder exits non-zero still reaches the
scan of an (empty) directory. -/
theorem C7_witness :
    extract_frames ⟨true, .ok (), .ok false⟩ = .ok "ffmpeg process failed"
      ∧ main_pipeline ⟨true, .ok (), .ok false⟩ (.ok [])
          = .ok ("ffmpeg process failed", []) := by
  have h := (C7_soft_failure ⟨true, .ok (), .ok false⟩ (.ok []) rfl).1 rfl
  exact ⟨h.1, by rw [h.2]; rfl⟩

/-- Claim C2 (counterexample): at the program's threshold `1/100`, with
100×1 frames `a` (all zero), `b` (pixel 0 flipped) and `c` (pixel 1
flipped), the first scan deletes exactly `b` — `c` survives because it is
compared against the deleted `b` (ratio `2/100`).  Re-running the scan
over the surviving files `a, c` deletes `c` (ratio `1/100 ≤ 1/100`), so
the scan is not idempotent. -/
theorem C2_counterexample :
    process_frames (.ok
        [some ⟨"a", some "png", .ok ⟨100, 1, fun _ _ => (0, 0, 0, 0)⟩, none⟩,
         some ⟨"b", some "png", .ok ⟨100, 1, fun x _ => (if x = 0 then 1 else 0, 0, 0, 0)⟩, none⟩,
         some ⟨"c", some "png", .ok ⟨100, 1, fun x _ => (if x = 1 then 1 else 0, 0, 0, 0)⟩, none⟩])
        (1 / 100)
      = .ok ["b"]
    ∧ (survivors
        [⟨"a", some "png", .ok ⟨100, 1, fun _ _ => (0, 0, 0, 0)⟩, none⟩,
         ⟨"b", some "png", .ok ⟨100, 1, fun x _ => (if x = 0 then 1 else 0, 0, 0, 0)⟩, none⟩,
         ⟨"c", some "png", .ok ⟨100, 1, fun x _ => (if x = 1 then 1 else 0, 0, 0, 0)⟩, none⟩]
        ["b"]).map (fun f => f.path) = ["a", "c"]
    ∧ process_frames (.ok
        [some ⟨"a", some "png", .ok ⟨100, 1, fun _ _ => (0, 0, 0, 0)⟩, none⟩,
         some ⟨"c", some "png", .ok ⟨100, 1, fun x _ => (if x = 1 then 1 else 0, 0, 0, 0)⟩, none⟩])
        (1 / 100)
      = .ok ["c"] :=
  ⟨by decide, by decide, by decide⟩

/-- Claim C2 (amended): the scan is idempotent for thresholds `≤ 0`
(there a deletion requires a pixel-identical frame, and pixel identity is
transitive, so consecutive survivors are never similar): a second run
over the surviving files deletes nothing.  For positive thresholds —
including the program's `1/100` — idempotence fails, because the baseline
advances to deleted frames. -/
theorem C2_idempotent_nonpos (t : ℚ) (entries : List (Option FrameFile)) (ds : List String)
    (ht : t ≤ 0)
    (hnd : ((entries.filterMap id).map (fun f => f.path)).Nodup)
    (h : process_frames (.ok entries) t = .ok ds) :
    process_frames (.ok ((survivors (entries.filterMap id) ds).map some)) t = .ok [] := by
  rw [process_frames_ok_iff] at h
  rw [process_frames_ok_iff, filterMap_map_some, pngOnly_survivors,
    sortFiles_survivors ds (nodup_paths_pngOnly hnd)]
  exact runScan_of_survChain t _ none
    (survChain_of_runScan ht _ none ds
      (nodup_paths_sortFiles (nodup_paths_pngOnly hnd)) h)

/-- Witness for C2 (amended): at threshold `0`, after a first run that
deleted the duplicate `b`, the second run over the survivors deletes
nothing. -/
theorem C2_witness :
    process_frames (.ok ((survivors
        [⟨"a", some "png", .ok ⟨1, 1, fun _ _ => (0, 0, 0, 0)⟩, none⟩,
         ⟨"b", some "png", .ok ⟨1, 1, fun _ _ => (0, 0, 0, 0)⟩, none⟩] ["b"]).map some)) 0
      = .ok [] :=
  C2_idempotent_nonpos 0
    [some ⟨"a", some "png", .ok ⟨1, 1, fun _ _ => (0, 0, 0, 0)⟩, none⟩,
     some ⟨"b", some "png", .ok ⟨1, 1, fun _ _ => (0, 0, 0, 0)⟩, none⟩] ["b"]
    (by decide) (by decide) (by decide)

/-- Claim C3: five equal-dimension frames in path order, where frames
1–3 are pixel-identical, frame 4 differs from frame 3 in every pixel and
frame 5 is identical to frame 4: the scan at threshold `0.01` deletes
exactly the files at positions 2, 3 and 5, leaving positions 1 and 4. -/
theorem C3_three_dup_scenario
    (f1 f2 f3 f4 f5 : FrameFile) (I1 I2 I3 I4 I5 : Image)
    (hd1 : f1.decode = .ok I1) (hd2 : f2.decode = .ok I2) (hd3 : f3.decode = .ok I3)
    (hd4 : f4.decode = .ok I4) (hd5 : f5.decode = .ok I5)
    (he1 : f1.ext = some "png") (he2 : f2.ext = some "png") (he3 : f3.ext = some "png")
    (he4 : f4.ext = some "png") (he5 : f5.ext = some "png")
    (hr2 : f2.removeErr = none) (hr3 : f3.removeErr = none) (hr5 : f5.removeErr = none)
    (hsort : List.Sorted pathLt [f1, f2, f3, f4, f5])
    (hdim12 : I1.dimensions = I2.dimensions) (hdim23 : I2.dimensions = I3.dimensions)
    (hdim34 : I3.dimensions = I4.dimensions) (hdim45 : I4.dimensions = I5.dimensions)
    (hpos : 0 < total_pixels I3)
    (hid12 : diffCount I1 I2 = 0) (hid23 : diffCount I2 I3 = 0)
    (hall34 : diffCount I3 I4 = total_pixels I3) (hid45 : diffCount I4 I5 = 0) :
    process_frames (.ok [some f1, some f2, some f3, some f4, some f5]) (1 / 100)
      = .ok [f2.path, f3.path, f5.path]
    ∧ remainingPaths [f1, f2, f3, f4, f5] [f2.path, f3.path, f5.path]
        = [f1.path, f4.path] := by
  have hs12 : are_images_similar I1 I2 (1 / 100) = true :=
    similar_of_identical hdim12 hid12 (by norm_num)
  have hs23 : are_images_similar I2 I3 (1 / 100) = true :=
    similar_of_identical hdim23 hid23 (by norm_num)
  have hs45 : are_images_similar I4 I5 (1 / 100) = true :=
    similar_of_identical hdim45 hid45 (by norm_num)
  have hs34 : are_images_similar I3 I4 (1 / 100) = false :=
    similar_false_of_ratio (by rw [ratio_eq_one_of_all hall34 hpos]; norm_num)
  have hsle : List.Sorted pathLe [f1, f2, f3, f4, f5] :=
    hsort.imp (fun h => pathLe_of_pathLt h)
  have h1 := List.pairwise_cons.1 hsort
  have h2 := List.pairwise_cons.1 h1.2
  have h3 := List.pairwise_cons.1 h2.2
  have h4 := List.pairwise_cons.1 h3.2
  have n12 : f1.path ≠ f2.path := ne_of_pathLt (h1.1 f2 (by simp))
  have n13 : f1.path ≠ f3.path := ne_of_pathLt (h1.1 f3 (by simp))
  have n15 : f1.path ≠ f5.path := ne_of_pathLt (h1.1 f5 (by simp))
  have n42 : f4.path ≠ f2.path := (ne_of_pathLt (h2.1 f4 (by simp))).symm
  have n43 : f4.path ≠ f3.path := (ne_of_pathLt (h3.1 f4 (by simp))).symm
  have n45 : f4.path ≠ f5.path := ne_of_pathLt (h4.1 f5 (by simp))
  constructor
  · rw [process_frames_ok_iff]
    show runScan (1 / 100) none (sortFiles (pngOnly [f1, f2, f3, f4, f5]))
      = ([f2.path, f3.path, f5.path], none)
    have hpng : pngOnly [f1, f2, f3, f4, f5] = [f1, f2, f3, f4, f5] := by
      simp [pngOnly, List.filter, he1, he2, he3, he4, he5]
    rw [hpng, sortFiles_of_sorted hsle]
    rw [runScan_first (1 / 100) _ hd1]
    rw [runScan_delete (1 / 100) _ hd2 hs12 hr2]
    rw [runScan_delete (1 / 100) _ hd3 hs23 hr3]
    rw [runScan_keep (1 / 100) _ hd4 hs34]
    rw [runScan_delete (1 / 100) _ hd5 hs45 hr5]
    rfl
  · simp [remainingPaths, List.contains, n12, n13, n15, n42, n43, n45]

/-- Witness for C3: the scenario evaluated on concrete 1×1 frames
`a b c d e` with pixels `0 0 0 1 1`. -/
theorem C3_witness :
    process_frames (.ok
        [some ⟨"a", some "png", .ok ⟨1, 1, fun _ _ => (0, 0, 0, 0)⟩, none⟩,
         some ⟨"b", some "png", .ok ⟨1, 1, fun _ _ => (0, 0, 0, 0)⟩, none⟩,
         some ⟨"c", some "png", .ok ⟨1, 1, fun _ _ => (0, 0, 0, 0)⟩, none⟩,
         some ⟨"d", some "png", .ok ⟨1, 1, fun _ _ => (1, 0, 0, 0)⟩, none⟩,
         some ⟨"e", some "png", .ok ⟨1, 1, fun _ _ => (1, 0, 0, 0)⟩, none⟩]) (1 / 100)
      = .ok ["b", "c", "e"]
    ∧ remainingPaths
        [⟨"a", some "png", .ok ⟨1, 1, fun _ _ => (0, 0, 0, 0)⟩, none⟩,
         ⟨"b", some "png", .ok ⟨1, 1, fun _ _ => (0, 0, 0, 0)⟩, none⟩,
         ⟨"c", some "png", .ok ⟨1, 1, fun _ _ => (0, 0, 0, 0)⟩, none⟩,
         ⟨"d", some "png", .ok ⟨1, 1, fun _ _ => (1, 0, 0, 0)⟩, none⟩,
         ⟨"e", some "png", .ok ⟨1, 1, fun _ _ => (1, 0, 0, 0)⟩, none⟩] ["b", "c", "e"]
      = ["a", "d"] :=
  C3_three_dup_scenario
    ⟨"a", some "png", .ok ⟨1, 1, fun _ _ => (0, 0, 0, 0)⟩, none⟩
    ⟨"b", some "png", .ok ⟨1, 1, fun _ _ => (0, 0, 0, 0)⟩, none⟩
    ⟨"c", some "png", .ok ⟨1, 1, fun _ _ => (0, 0, 0, 0)⟩, none⟩
    ⟨"d", some "png", .ok ⟨1, 1, fun _ _ => (1, 0, 0, 0)⟩, none⟩
    ⟨"e", some "png", .ok ⟨1, 1, fun _ _ => (1, 0, 0, 0)⟩, none⟩
    ⟨1, 1, fun _ _ => (0, 0, 0, 0)⟩ ⟨1, 1, fun _ _ => (0, 0, 0, 0)⟩
    ⟨1, 1, fun _ _ => (0, 0, 0, 0)⟩ ⟨1, 1, fun _ _ => (1, 0, 0, 0)⟩
    ⟨1, 1, fun _ _ => (1, 0, 0, 0)⟩
    rfl rfl rfl rfl rfl rfl rfl rfl rfl rfl rfl rfl rfl
    (by decide) rfl rfl rfl rfl (by decide) (by decide) (by decide) (by decide) (by decide)

/-- Claim C10: a successful scan only ever deletes files: every
remaining path was already present, every deleted path belonged to a
listed `png` file, and files whose extension is not `png` are left
untouched. -/
theorem C10_only_deletes (entries : List (Option FrameFile)) (t : ℚ) (ds : List String)
    (hnd : ((entries.filterMap id).map (fun f => f.path)).Nodup)
    (h : process_frames (.ok entries) t = .ok ds) :
    (∀ p ∈ remainingPaths (entries.filterMap id) ds,
        p ∈ (entries.filterMap id).map (fun f => f.path))
      ∧ (∀ p ∈ ds, ∃ f ∈ entries.filterMap id, f.path = p ∧ f.ext = some "png")
      ∧ (∀ f ∈ entries.filterMap id, f.ext ≠ some "png" →
          f.path ∈ remainingPaths (entries.filterMap id) ds) := by
  rw [process_frames_ok_iff] at h
  have hds_sub : ∀ p ∈ ds, ∃ f ∈ entries.filterMap id, f.path = p ∧ f.ext = some "png" := by
    intro p hp
    have hp' : p ∈ (runScan t none (sortFiles (pngOnly (entries.filterMap id)))).1 := by
      rw [h]
      exact hp
    have hmem := runScan_deleted_sub t _ none p hp'
    obtain ⟨g, hg, hgp⟩ := List.mem_map.1 hmem
    have hg' : g ∈ pngOnly (entries.filterMap id) := by
      simpa [sortFiles] using hg
    obtain ⟨hgmem, hgext⟩ := List.mem_filter.1 hg'
    refine ⟨g, hgmem, hgp, ?_⟩
    simpa using hgext
  refine ⟨fun p hp => List.mem_of_mem_filter hp, hds_sub, fun f hf hext => ?_⟩
  unfold remainingPaths
  rw [List.mem_filter]
  refine ⟨List.mem_map_of_mem _ hf, ?_⟩
  have hnotin : f.path ∉ ds := by
    intro hin
    obtain ⟨g, hgmem, hgp, hgext⟩ := hds_sub f.path hin
    have hgf : g = f := List.inj_on_of_nodup_map hnd hgmem hf hgp
    rw [hgf] at hgext
    exact hext hgext
  simp [List.contains, hnotin]

/-- Witness for C10: evaluated on a directory holding two identical
`png` frames and one `txt` file; the scan deletes only the duplicate
frame and leaves the `txt` file alone. -/
theorem C10_witness :
    (∀ p ∈ remainingPaths
        [⟨"a.png", some "png", .ok ⟨1, 1, fun _ _ => (0, 0, 0, 0)⟩, none⟩,
         ⟨"b.png", some "png", .ok ⟨1, 1, fun _ _ => (0, 0, 0, 0)⟩, none⟩,
         ⟨"z.txt", some "txt", .error "not an image", none⟩] ["b.png"],
        p ∈ [⟨"a.png", some "png", .ok ⟨1, 1, fun _ _ => (0, 0, 0, 0)⟩, none⟩,
         ⟨"b.png", some "png", .ok ⟨1, 1, fun _ _ => (0, 0, 0, 0)⟩, none⟩,
         (⟨"z.txt", some "txt", .error "not an image", none⟩ : FrameFile)].map
           (fun f => f.path))
      ∧ (∀ p ∈ ["b.png"], ∃ f ∈
          [⟨"a.png", some "png", .ok ⟨1, 1, fun _ _ => (0, 0, 0, 0)⟩, none⟩,
           ⟨"b.png", some "png", .ok ⟨1, 1, fun _ _ => (0, 0, 0, 0)⟩, none⟩,
           (⟨"z.txt", some "txt", .error "not an image", none⟩ : FrameFile)],
          f.path = p ∧ f.ext = some "png")
      ∧ (∀ f ∈ [⟨"a.png", some "png", .ok ⟨1, 1, fun _ _ => (0, 0, 0, 0)⟩, none⟩,
           ⟨"b.png", some "png", .ok ⟨1, 1, fun _ _ => (0, 0, 0, 0)⟩, none⟩,
           (⟨"z.txt", some "txt", .error "not an image", none⟩ : FrameFile)],
          f.ext ≠ some "png" →
          f.path ∈ remainingPaths
            [⟨"a.png", some "png", .ok ⟨1, 1, fun _ _ => (0, 0, 0, 0)⟩, none⟩,
             ⟨"b.png", some "png", .ok ⟨1, 1, fun _ _ => (0, 0, 0, 0)⟩, none⟩,
             ⟨"z.txt", some "txt", .error "not an image", none⟩] ["b.png"]) :=
  C10_only_deletes
    [some ⟨"a.png", some "png", .ok ⟨1, 1, fun _ _ => (0, 0, 0, 0)⟩, none⟩,
     some ⟨"b.png", some "png", .ok ⟨1, 1, fun _ _ => (0, 0, 0, 0)⟩, none⟩,
     some ⟨"z.txt", some "txt", .error "not an image", none⟩] 0 ["b.png"]
    (by decide) (by decide)
